import Mathlib

/-!
Verification development for the Mistral-oUI perception-request orchestrator
(Server/src/main.py, Server/src/local_test.py, Server/src/detect.py).

Python strings are modelled as List Char, the collaborators (captioning model,
YOLO detector, downstream Sink) as inputs to the embedded functions, and the
side-effecting handler as a function returning an ordered event trace plus its
HTTP result.
-/

namespace MoUI

/-! ### Decimal rendering: the embedding of Python str(int) for nonnegative ints.
Fuel-based structural recursion so that the kernel can evaluate it. -/

/-- Least-significant-first decimal digits of n; fuel bounds the recursion. -/
def digitsRev : Nat → Nat → List Nat
  | 0, _ => []
  | fuel + 1, n => if n = 0 then [] else n % 10 :: digitsRev fuel (n / 10)

/-- Decimal rendering of a natural number, as Python str produces for a
nonnegative int: most-significant digit first, and 0 renders as "0". -/
def strOfNat (n : Nat) : List Char :=
  if n = 0 then ['0'] else ((digitsRev n n).map Nat.digitChar).reverse

/-- Value of a least-significant-first digit list; proof helper used to show
that strOfNat is injective. -/
def evalRev : List Nat → Nat
  | [] => 0
  | d :: ds => d + 10 * evalRev ds

/-! ### Caption streaming adapter
Embedding of local_test.py answer_question lines 93-97 (the fragment loop:
clean_text := re.sub with pattern matching a final "<" or a final "END",
buffer accumulation, and yield of buffer.strip of the four marker characters)
together with the consumption loop of main.py lines 86-90 (keep the last
non-empty yielded text). -/

/-- The end-of-stream marker emitted by the captioning collaborator. -/
def eosMarker : List Char := ['<', 'E', 'N', 'D']

/-- True for the characters of the Python strip charset "<END". -/
def isMarkerChar (c : Char) : Bool :=
  c = '<' || c = 'E' || c = 'N' || c = 'D'

/-- Embedding of re.sub removing an end-anchored "<" or an end-anchored "END"
from one fragment (local_test.py line 95): at most one match is possible since
both alternatives are anchored at the end of the string, and re.sub does not
rescan after a replacement. -/
def cleanFragment (f : List Char) : List Char :=
  if f.getLast? = some '<' then f.dropLast
  else if ['E', 'N', 'D'].isSuffixOf f then f.dropLast.dropLast.dropLast
  else f

/-- Embedding of Python str.strip with charset "<END": remove the leading and
trailing runs of characters drawn from that set (local_test.py line 97). -/
def stripMarker (l : List Char) : List Char :=
  ((l.dropWhile isMarkerChar).reverse.dropWhile isMarkerChar).reverse

/-- The successive values yielded by the answer_question generator, given the
raw fragments emitted by the collaborator's streamer: the buffer grows by each
cleaned fragment and each step yields the stripped buffer
(local_test.py lines 93-97). -/
def captionYieldsAux (buf : List Char) : List (List Char) → List (List Char)
  | [] => []
  | f :: rest =>
      stripMarker (buf ++ cleanFragment f) ::
        captionYieldsAux (buf ++ cleanFragment f) rest

/-- All yields of answer_question starting from the empty buffer. -/
def captionYields (frags : List (List Char)) : List (List Char) :=
  captionYieldsAux [] frags

/-- Embedding of the consumption loop in main.py lines 86-90: keep the last
non-empty yielded text, defaulting to the empty string. -/
def lastNonEmpty (ys : List (List Char)) : List Char :=
  ys.foldl (fun buf t => if t.length > 0 then t else buf) []

/-- The final caption produced by the synchronous captioning step of
create_upload_file for a given raw fragment stream. -/
def finalCaption (frags : List (List Char)) : List Char :=
  lastNonEmpty (captionYields frags)

/-! ### Detection labeling
Embedding of detect.py predict_object lines 26-35: uniq_dict maps each class
index to its total number of occurrences in the frame; the loop walks the
detections in order, emits names of the class followed by an underscore and the
current remaining count, then decrements that class's count. -/

/-- One label: names of the class, an underscore, then the decimal count
(detect.py lines 33-34). -/
def labelOf (names : Nat → List Char) (c k : Nat) : List Char :=
  names c ++ '_' :: strOfNat k

/-- The labeling loop of detect.py lines 32-35, with the mutable uniq_dict
represented as an explicit remaining-count function updated pointwise. -/
def labelLoop (names : Nat → List Char) : (Nat → Nat) → List Nat → List (List Char)
  | _, [] => []
  | rem, c :: rest =>
      labelOf names c (rem c) ::
        labelLoop names (fun x => if x = c then rem x - 1 else rem x) rest

/-- Labels for a frame: remaining counts start at the total occurrence count of
each class in the frame (detect.py lines 28-29, np.unique with return_counts). -/
def labelsOf (names : Nat → List Char) (cls : List Nat) : List (List Char) :=
  labelLoop names (fun c => cls.count c) cls

/-- The objects list built by predict_object: each labeled detection paired
with its xywh box, in detector output order (detect.py lines 31-35). -/
def labelObjects {β : Type} (names : Nat → List Char) (cls : List Nat)
    (xywh : List β) : List (List Char × β) :=
  (labelsOf names cls).zip xywh

/-! ### Orchestration trace model
Event-trace embedding of main.py.  Each print site and each outbound effect is
one event constructor; the handler returns the ordered trace of the request's
events together with its HTTP result.  The type parameter β models a bounding
box (a float tensor row, never computed on), γ models decoded image data. -/

/-- One event of a request's execution, in program order.  Log events embed
the print statements of main.py and detect.py; captionPosted and detectPosted
record a delivery actually received by the Sink; responded records the HTTP
response leaving the handler. -/
inductive Ev (β γ : Type) where
  | logUploadingFile (name : List Char)
  | issuedId (id : List Char)
  | logSendingCaption (id caption : List Char)
  | captionPosted (id caption : List Char) (img : γ)
  | logDetecting
  | logConverted
  | logPredicting
  | logWarnNoObj
  | logDonePredicting
  | logPredicted
  | logSendingDetection
  | detectPosted (id : List Char) (objs : List (List Char × β)) (img : γ)
  | logRespStatus (code : Nat)
  | logDetectDone
  | responded (status : Nat) (body : List (List Char × List Char))
deriving DecidableEq

/-- One per-image result record of the YOLO collaborator: class indices,
xywh boxes, xyxy boxes, and the index-to-name lookup (detect.py lines 24-26).
The detector contract yields one such record per input image; a frame with
zero detections is a record whose lists are empty. -/
structure YoloRec (β : Type) where
  cls : List Nat
  xywh : List β
  xyxy : List β
  names : Nat → List Char

/-- Outcome of the predict_object body after the length guard: bare is the
early return of a plain empty list (detect.py line 22, not a pair), pair is
the normal (objects, annotated_image) tuple (detect.py line 53). -/
inductive PredictRet (β γ : Type) where
  | bare
  | pair (objs : List (List Char × β)) (annotated : γ)

/-- Embedding of the Annotator loop of detect.py lines 39-51: box_label is
drawn for each enumerated object using its name and the xyxy box at the same
index; boxLabel abstracts one box_label call (image, box, label, color index). -/
def annotateAll {β γ : Type} (boxLabel : γ → β → List Char → Nat → γ)
    (img : γ) (xyxy : List β) (objs : List (List Char × β)) : γ :=
  (((objs.map Prod.fst).zip xyxy).enum).foldl
    (fun im p => boxLabel im p.2.2 p.2.1 p.1) img

/-- Embedding of detect.py predict_object (lines 7-53) at the trace level.
The collaborator call model.predict may raise (Except.error); an empty results
list takes the bare early return; otherwise the labeled objects are built and
the image is annotated.  Returns the events printed inside predict_object and
none when the collaborator call raised. -/
def predict_object {β γ : Type} (boxLabel : γ → β → List Char → Nat → γ)
    (yolo : Except Unit (List (YoloRec β))) (imgNp : γ) :
    List (Ev β γ) × Option (PredictRet β γ) :=
  match yolo with
  | .error _ => ([.logPredicting], none)
  | .ok [] => ([.logPredicting, .logWarnNoObj], some .bare)
  | .ok (r :: _) =>
      let objs := labelObjects r.names r.cls r.xywh
      ([.logPredicting, .logDonePredicting],
        some (.pair objs (annotateAll boxLabel imgNp r.xyxy objs)))

/-- Embedding of the detection delivery task, main.py detect_object lines
37-68, as run by the executor: the task body's events paired with whether the
body ran to completion (false means an exception escaped the body and was
captured, unread, by the executor's Future).  A bare predict_object return
makes the tuple unpacking at line 41 raise; a down Sink makes requests.post at
line 57 raise; in both cases no detection delivery happens. -/
def detect_object_task {β γ : Type} (boxLabel : γ → β → List Char → Nat → γ)
    (id : List Char) (img : γ) (yolo : Except Unit (List (YoloRec β)))
    (sinkDetectUp : Bool) : List (Ev β γ) × Bool :=
  let e0 : List (Ev β γ) := [.logDetecting, .logConverted]
  let pr := predict_object boxLabel yolo img
  match pr.2 with
  | none => (e0 ++ pr.1, false)
  | some .bare => (e0 ++ pr.1, false)
  | some (.pair objs ann) =>
      if sinkDetectUp then
        (e0 ++ pr.1 ++
          [.logPredicted, .logSendingDetection, .detectPosted id objs ann,
            .logRespStatus 200, .logDetectDone], true)
      else
        (e0 ++ pr.1 ++ [.logPredicted, .logSendingDetection], false)

/-- Embedding of the caption delivery task, main.py send_answer lines 21-32:
print, serialize the image, post (id, caption, image) to the Sink's caption
endpoint.  A down Sink makes the post raise after the print. -/
def send_answer_task {β γ : Type} (id caption : List Char) (img : γ)
    (sinkCaptionUp : Bool) : List (Ev β γ) × Bool :=
  if sinkCaptionUp then
    ([.logSendingCaption id caption, .captionPosted id caption img], true)
  else
    ([.logSendingCaption id caption], false)

/-- The inputs of one upload request: the uploaded filename, the uuid4 draw,
the result of Image.open on the staged payload (none = the payload does not
decode), the captioning collaborator's raw fragment stream, the detection
collaborator's outcome, and whether each Sink endpoint is reachable. -/
structure UploadInput (β γ : Type) where
  filename : List Char
  uuid : List Char
  decoded : Option γ
  fragments : List (List Char)
  yolo : Except Unit (List (YoloRec β))
  sinkCaptionUp : Bool
  sinkDetectUp : Bool

/-- The handler's HTTP result: ok carries the JSONResponse status and body as
an ordered field list; errorResp is FastAPI's response to an exception that
escaped the handler (status 500 for an unhandled error). -/
inductive UploadResult where
  | ok (status : Nat) (body : List (List Char × List Char))
  | errorResp (status : Nat)
deriving DecidableEq

/-- The hardcoded render URL of main.py line 99 for a given id. -/
def renderUrlFor (id : List Char) : List Char :=
  "https://7f0e-4-78-254-114.ngrok-free.app/render/".data ++ id

/-- The JSON body returned on success (main.py line 99): id, caption, url. -/
def respBody (id caption : List Char) : List (List Char × List Char) :=
  [("id".data, id), ("caption".data, caption), ("url".data, renderUrlFor id)]

/-- Embedding of main.py create_upload_file (lines 71-99).  Program order:
print the upload, stage the file, draw the uuid (line 82), open the image
(line 84; an undecodable payload raises here, after the uuid draw, and FastAPI
answers 500), run the captioning loop to completion, then enter the
ThreadPoolExecutor with-block, which submits both delivery tasks and, on exit,
waits for both before the return statement runs.  Exceptions inside the tasks
stay inside their Futures.  The trace lists the events in program order with
one admissible schedule of the two concurrent task slots (caption task first). -/
def create_upload_file {β γ : Type} (boxLabel : γ → β → List Char → Nat → γ)
    (inp : UploadInput β γ) : List (Ev β γ) × UploadResult :=
  let e0 : List (Ev β γ) := [.logUploadingFile inp.filename, .issuedId inp.uuid]
  match inp.decoded with
  | none => (e0, .errorResp 500)
  | some img =>
      let answer := finalCaption inp.fragments
      let t1 := send_answer_task inp.uuid answer img inp.sinkCaptionUp
      let t2 := detect_object_task boxLabel inp.uuid img inp.yolo inp.sinkDetectUp
      (e0 ++ t1.1 ++ t2.1 ++ [.responded 200 (respBody inp.uuid answer)],
        .ok 200 (respBody inp.uuid answer))

/-- True for events emitted by either background delivery task. -/
def isTaskEv {β γ : Type} : Ev β γ → Bool
  | .logSendingCaption _ _ => true
  | .captionPosted _ _ _ => true
  | .logDetecting => true
  | .logConverted => true
  | .logPredicting => true
  | .logWarnNoObj => true
  | .logDonePredicting => true
  | .logPredicted => true
  | .logSendingDetection => true
  | .detectPosted _ _ _ => true
  | .logRespStatus _ => true
  | .logDetectDone => true
  | _ => false

/-- True for the event of the HTTP response leaving the handler. -/
def isRespondedEv {β γ : Type} : Ev β γ → Bool
  | .responded _ _ => true
  | _ => false

/-- True for print (log) events. -/
def isLogEv {β γ : Type} : Ev β γ → Bool
  | .logUploadingFile _ => true
  | .logSendingCaption _ _ => true
  | .logDetecting => true
  | .logConverted => true
  | .logPredicting => true
  | .logWarnNoObj => true
  | .logDonePredicting => true
  | .logPredicted => true
  | .logSendingDetection => true
  | .logRespStatus _ => true
  | .logDetectDone => true
  | _ => false

/-- True for the id-issuing event. -/
def isIssuedIdEv {β γ : Type} : Ev β γ → Bool
  | .issuedId _ => true
  | _ => false

/-- Formalization of a fire-and-forget response: no background-task event
occurs before the response event in the trace. -/
def noTaskEvBeforeResponded {β γ : Type} (tr : List (Ev β γ)) : Bool :=
  (tr.takeWhile fun e => !(isRespondedEv e)).all fun e => !(isTaskEv e)

/-- True when the result is a 4xx response. -/
def is4xxResp : UploadResult → Bool
  | .errorResp s => 400 ≤ s && s < 500
  | .ok s _ => 400 ≤ s && s < 500

/-- The field-name list of a successful response body, none on error. -/
def respKeysOf : UploadResult → Option (List (List Char))
  | .ok _ body => some (body.map Prod.fst)
  | .errorResp _ => none

/-! ### Memory model for the shared decoded image
Explicit buffer-store embedding of the aliasing facts of the detection path:
np.array on a PIL image allocates a fresh array holding a copy of the pixels
(main.py line 39), the Annotator with pil set to False draws on that array in
place (detect.py lines 39-51), Image.fromarray copies into a fresh image
(main.py line 44), and the caption delivery task serializes the original
decoded image (main.py lines 24-25). -/

/-- A store of pixel buffers: next is the lowest unallocated buffer id. -/
structure Mem (γ : Type) where
  next : Nat
  store : Nat → γ

/-- Allocate a fresh buffer holding v. -/
def Mem.alloc {γ : Type} (m : Mem γ) (v : γ) : Nat × Mem γ :=
  (m.next, ⟨m.next + 1, fun i => if i = m.next then v else m.store i⟩)

/-- Overwrite buffer i with v. -/
def Mem.write {γ : Type} (m : Mem γ) (i : Nat) (v : γ) : Mem γ :=
  ⟨m.next, fun j => if j = i then v else m.store j⟩

/-- np.array on a decoded image: a fresh array with a copy of the pixels. -/
def npArrayCopy {γ : Type} (m : Mem γ) (imgBuf : Nat) : Nat × Mem γ :=
  m.alloc (m.store imgBuf)

/-- The Annotator's drawing pass: mutates the given array buffer in place,
with draw abstracting the pixels written by the box_label calls. -/
def annotateInPlace {γ : Type} (draw : γ → γ) (m : Mem γ) (buf : Nat) : Mem γ :=
  m.write buf (draw (m.store buf))

/-- Memory behavior of the detection task on the shared decoded image at
imgBuf: copy to a fresh numpy buffer, draw on the copy in place, then copy the
annotated array into a fresh PIL image (returned buffer id). -/
def detect_object_mem {γ : Type} (draw : γ → γ) (m : Mem γ) (imgBuf : Nat) :
    Nat × Mem γ :=
  let a := npArrayCopy m imgBuf
  let m2 := annotateInPlace draw a.2 a.1
  m2.alloc (m2.store a.1)

/-- Memory behavior of the caption delivery task's serialization: encode the
pixels of the shared decoded image buffer. -/
def send_answer_mem {γ δ : Type} (jpeg : γ → δ) (m : Mem γ) (imgBuf : Nat) : δ :=
  jpeg (m.store imgBuf)

/-! ## Helper lemmas -/

theorem digitsRev_lt10 : ∀ (fuel n d : Nat), d ∈ digitsRev fuel n → d < 10 := by
  intro fuel
  induction fuel with
  | zero => intro n d h; simp [digitsRev] at h
  | succ f ih =>
      intro n d h
      simp only [digitsRev] at h
      by_cases hn : n = 0
      · simp [hn] at h
      · simp only [if_neg hn, List.mem_cons] at h
        rcases h with h | h
        · omega
        · exact ih _ _ h

theorem evalRev_digitsRev : ∀ (fuel n : Nat), n ≤ fuel → evalRev (digitsRev fuel n) = n := by
  intro fuel
  induction fuel with
  | zero => intro n h; interval_cases n; simp [digitsRev, evalRev]
  | succ f ih =>
      intro n h
      by_cases hn : n = 0
      · simp [digitsRev, hn, evalRev]
      · have h10 : n / 10 ≤ f := by omega
        simp only [digitsRev, if_neg hn, evalRev, ih _ h10]
        omega

theorem digitChar_inj10 {a b : Nat} (ha : a < 10) (hb : b < 10)
    (h : Nat.digitChar a = Nat.digitChar b) : a = b := by
  interval_cases a <;> interval_cases b <;> (revert h; decide)

theorem digitChar_ne_underscore {d : Nat} (hd : d < 10) : Nat.digitChar d ≠ '_' := by
  interval_cases d <;> decide

theorem map_digitChar_inj :
    ∀ {l1 l2 : List Nat}, (∀ d ∈ l1, d < 10) → (∀ d ∈ l2, d < 10) →
      l1.map Nat.digitChar = l2.map Nat.digitChar → l1 = l2 := by
  intro l1
  induction l1 with
  | nil => intro l2 _ _ h; cases l2 <;> simp_all
  | cons a t ih =>
      intro l2 h1 h2 h
      cases l2 with
      | nil => simp_all
      | cons b u =>
          simp only [List.map_cons, List.cons.injEq] at h
          have hab : a = b :=
            digitChar_inj10 (h1 a (by simp)) (h2 b (by simp)) h.1
          have ht : t = u :=
            ih (fun d hd => h1 d (by simp [hd])) (fun d hd => h2 d (by simp [hd])) h.2
          simp [hab, ht]

theorem digitsRev_map_ne_zeroChar {n : Nat} (hn : n ≠ 0)
    (h : (digitsRev n n).map Nat.digitChar = ['0']) : False := by
  have hd : digitsRev n n = [0] :=
    map_digitChar_inj (fun d hd => digitsRev_lt10 _ _ _ hd)
      (by intro d hd; simp at hd; omega)
      (by rw [h]; decide)
  have := evalRev_digitsRev n n le_rfl
  rw [hd] at this
  simp [evalRev] at this
  omega

theorem strOfNat_inj {m n : Nat} (h : strOfNat m = strOfNat n) : m = n := by
  unfold strOfNat at h
  by_cases hm : m = 0 <;> by_cases hn : n = 0
  · omega
  · exfalso
    simp only [if_pos hm, if_neg hn] at h
    have hmap : (digitsRev n n).map Nat.digitChar = ['0'] := by
      have h2 := congrArg List.reverse h.symm
      simpa using h2
    exact digitsRev_map_ne_zeroChar hn hmap
  · exfalso
    simp only [if_pos hn, if_neg hm] at h
    have hmap : (digitsRev m m).map Nat.digitChar = ['0'] := by
      have h2 := congrArg List.reverse h
      simpa using h2
    exact digitsRev_map_ne_zeroChar hm hmap
  · simp only [if_neg hm, if_neg hn] at h
    have hmap := congrArg List.reverse h
    simp only [List.reverse_reverse] at hmap
    have hdig := map_digitChar_inj (fun d hd => digitsRev_lt10 _ _ _ hd)
      (fun d hd => digitsRev_lt10 _ _ _ hd) hmap
    have h1 := evalRev_digitsRev m m le_rfl
    have h2 := evalRev_digitsRev n n le_rfl
    rw [hdig] at h1
    omega

theorem underscore_not_mem_strOfNat (k : Nat) : '_' ∉ strOfNat k := by
  intro hmem
  unfold strOfNat at hmem
  by_cases hk : k = 0
  · simp [hk] at hmem
  · rw [if_neg hk, List.mem_reverse, List.mem_map] at hmem
    obtain ⟨d, hd, heq⟩ := hmem
    exact digitChar_ne_underscore (digitsRev_lt10 _ _ _ hd) heq

theorem append_cons_eq_of_not_mem {α : Type} {x : α} :
    ∀ (a b u v : List α), x ∉ u → x ∉ v → a ++ x :: u = b ++ x :: v →
      a = b ∧ u = v := by
  intro a
  induction a with
  | nil =>
      intro b u v hu hv h
      cases b with
      | nil => simpa using h
      | cons y bt =>
          exfalso
          simp only [List.nil_append, List.cons_append, List.cons.injEq] at h
          exact hu (h.2 ▸ (by simp : x ∈ bt ++ x :: v))
  | cons y at' ih =>
      intro b u v hu hv h
      cases b with
      | nil =>
          exfalso
          simp only [List.nil_append, List.cons_append, List.cons.injEq] at h
          exact hv (h.2.symm ▸ (by simp : x ∈ at' ++ x :: u))
      | cons z bt =>
          simp only [List.cons_append, List.cons.injEq] at h
          have := ih bt u v hu hv h.2
          exact ⟨by simp [h.1, this.1], this.2⟩

theorem labelOf_eq (names : Nat → List Char) {c1 c2 k1 k2 : Nat}
    (h : labelOf names c1 k1 = labelOf names c2 k2) :
    names c1 = names c2 ∧ k1 = k2 := by
  unfold labelOf at h
  have := append_cons_eq_of_not_mem (names c1) (names c2) (strOfNat k1) (strOfNat k2)
    (underscore_not_mem_strOfNat k1) (underscore_not_mem_strOfNat k2) h
  exact ⟨this.1, strOfNat_inj this.2⟩

theorem labelLoop_length (names : Nat → List Char) :
    ∀ (cs : List Nat) (rem : Nat → Nat),
      (labelLoop names rem cs).length = cs.length := by
  intro cs
  induction cs with
  | nil => intro rem; rfl
  | cons c rest ih => intro rem; simp [labelLoop, ih]

theorem labelLoop_getElem? (names : Nat → List Char) :
    ∀ (cs : List Nat) (rem : Nat → Nat) (i : Nat),
      (labelLoop names rem cs)[i]? =
        (cs[i]?).map fun c => labelOf names c (rem c - (cs.take i).count c) := by
  intro cs
  induction cs with
  | nil => intro rem i; simp [labelLoop]
  | cons c rest ih =>
      intro rem i
      cases i with
      | zero => simp [labelLoop]
      | succ j =>
          simp only [labelLoop, List.getElem?_cons_succ]
          rw [ih]
          cases hr : rest[j]? with
          | none => simp
          | some x =>
              simp only [Option.map_some']
              have harg : (if x = c then rem x - 1 else rem x) - (rest.take j).count x =
                  rem x - ((c :: rest).take (j + 1)).count x := by
                have htake : (c :: rest).take (j + 1) = c :: rest.take j := rfl
                rw [htake, List.count_cons]
                by_cases hx : x = c
                · subst hx
                  simp
                  omega
                · simp [hx, beq_iff_eq, Ne.symm hx]
              rw [harg]

theorem labelsOf_getElem? (names : Nat → List Char) (cls : List Nat) (i : Nat) :
    (labelsOf names cls)[i]? =
      (cls[i]?).map fun c => labelOf names c (cls.count c - (cls.take i).count c) :=
  labelLoop_getElem? names cls _ i

theorem labelsOf_length (names : Nat → List Char) (cls : List Nat) :
    (labelsOf names cls).length = cls.length :=
  labelLoop_length names cls _

/-! ## Claim C4 -/

/-- C4: for every ordered sequence of detected class indices and name lookup,
the labeling step produces, in detector output order, for each detection the
label names of the class, an underscore, and the remaining count for that
class, where the remaining count starts at the total occurrences of the class
in the frame and is decremented after each use; in particular the input order
dog, dog, cat with totals dog 2 and cat 1 yields exactly dog_2, dog_1, cat_1. -/
theorem c4_labeling_countdown :
    (∀ (names : Nat → List Char) (cls : List Nat) (i : Nat),
        (labelsOf names cls)[i]? =
          (cls[i]?).map fun c =>
            names c ++ '_' :: strOfNat (cls.count c - (cls.take i).count c)) ∧
      labelsOf (fun c => if c = 0 then "dog".data else "cat".data) [0, 0, 1] =
        ["dog_2".data, "dog_1".data, "cat_1".data] := by
  constructor
  · intro names cls i
    exact labelsOf_getElem? names cls i
  · decide

/-! ## Claim C7 -/

/-- C7 fails as stated: with a name lookup sending the two distinct class
indices 0 and 1 both to the name dog, the frame with detections 0, 1 produces
the colliding labels dog_1, dog_1. -/
theorem c7_counterexample :
    ¬ (labelsOf (fun _ => "dog".data) [0, 1]).Nodup := by decide

/-- C7 amended: the labels of one Detection Result are pairwise distinct
provided the name lookup is injective on the class indices detected in the
frame (true of an actual detector class table; the claim as stated fails when
two distinct indices share a name). -/
theorem c7_labels_nodup (names : Nat → List Char) (cls : List Nat)
    (hinj : ∀ c1 ∈ cls, ∀ c2 ∈ cls, names c1 = names c2 → c1 = c2) :
    (labelsOf names cls).Nodup := by
  rw [List.nodup_iff_getElem?_ne_getElem?]
  intro i j hij hj heq
  have hj' : j < cls.length := by
    have := labelsOf_length names cls
    omega
  have hi' : i < cls.length := lt_trans hij hj'
  have hci : cls[i]? = some cls[i] := List.getElem?_eq_getElem hi'
  have hcj : cls[j]? = some cls[j] := List.getElem?_eq_getElem hj'
  rw [labelsOf_getElem?, labelsOf_getElem?, hci, hcj] at heq
  simp only [Option.map_some', Option.some.injEq] at heq
  have hsplit := labelOf_eq names heq
  have hcc : cls[i] = cls[j] :=
    hinj cls[i] (List.getElem_mem hi') cls[j] (List.getElem_mem hj') hsplit.1
  have hk := hsplit.2
  rw [hcc] at hk
  set c := cls[j] with hc
  have h1 : (cls.take (i + 1)).count c = (cls.take i).count c + 1 := by
    rw [List.take_succ, hci, hcc]
    simp
  have h2 : (cls.take (i + 1)).count c ≤ (cls.take j).count c :=
    (List.take_sublist_take_left cls (by omega)).count_le c
  have h3 : (cls.take (j + 1)).count c = (cls.take j).count c + 1 := by
    rw [List.take_succ, hcj]
    simp
  have h4 : (cls.take (j + 1)).count c ≤ cls.count c :=
    (List.take_sublist _ _).count_le c
  omega

/-- Witness for c7_labels_nodup at the dog, dog, cat frame. -/
theorem c7_witness :
    (labelsOf (fun c => if c = 0 then "dog".data else "cat".data) [0, 0, 1]).Nodup :=
  c7_labels_nodup _ _ (by decide)

/-! ## Adapter lemmas and claim C3 -/

theorem mem_of_mem_dropLast {c : Char} {l : List Char} (h : c ∈ l.dropLast) :
    c ∈ l :=
  (List.dropLast_sublist l).subset h

theorem mem_of_mem_stripMarker {c : Char} {l : List Char}
    (h : c ∈ stripMarker l) : c ∈ l := by
  unfold stripMarker at h
  rw [List.mem_reverse] at h
  have h2 := (List.dropWhile_sublist isMarkerChar).subset h
  rw [List.mem_reverse] at h2
  exact (List.dropWhile_sublist isMarkerChar).subset h2

theorem not_lt_mem_cleanFragment {f : List Char} (hf : '<' ∉ f.dropLast) :
    '<' ∉ cleanFragment f := by
  unfold cleanFragment
  by_cases h1 : f.getLast? = some '<'
  · rw [if_pos h1]
    exact hf
  · rw [if_neg h1]
    by_cases h2 : (['E', 'N', 'D'].isSuffixOf f) = true
    · rw [if_pos h2]
      intro hm
      exact hf (mem_of_mem_dropLast (mem_of_mem_dropLast hm))
    · rw [if_neg h2]
      intro hm
      rcases List.eq_nil_or_concat f with hnil | ⟨L, b, hLb⟩
      · rw [hnil] at hm
        simp at hm
      · rw [List.concat_eq_append] at hLb
        subst hLb
        rw [List.mem_append] at hm
        rcases hm with hm | hm
        · exact hf (by simpa using hm)
        · simp only [List.mem_singleton] at hm
          exact h1 (by simp [← hm])

theorem captionYieldsAux_no_lt :
    ∀ (frags : List (List Char)) (buf : List Char), '<' ∉ buf →
      (∀ f ∈ frags, '<' ∉ f.dropLast) →
      ∀ y ∈ captionYieldsAux buf frags, '<' ∉ y := by
  intro frags
  induction frags with
  | nil => intro buf _ _ y hy; simp [captionYieldsAux] at hy
  | cons f rest ih =>
      intro buf hbuf hfr y hy
      have hcf : '<' ∉ cleanFragment f :=
        not_lt_mem_cleanFragment (hfr f (by simp))
      have hbuf' : '<' ∉ buf ++ cleanFragment f := by
        rw [List.mem_append]
        rintro (hm | hm)
        · exact hbuf hm
        · exact hcf hm
      simp only [captionYieldsAux, List.mem_cons] at hy
      rcases hy with rfl | hy
      · intro hm
        exact hbuf' (mem_of_mem_stripMarker hm)
      · exact ih _ hbuf' (fun g hg => hfr g (by simp [hg])) y hy

theorem foldl_keepLast_prop (P : List Char → Prop) :
    ∀ (ys : List (List Char)) (init : List Char), P init → (∀ y ∈ ys, P y) →
      P (ys.foldl (fun buf t => if t.length > 0 then t else buf) init) := by
  intro ys
  induction ys with
  | nil => intro init hinit _; simpa using hinit
  | cons y rest ih =>
      intro init hinit hys
      simp only [List.foldl_cons]
      apply ih
      · by_cases hlen : y.length > 0
        · rw [if_pos hlen]
          exact hys y (by simp)
        · rw [if_neg hlen]
          exact hinit
      · exact fun g hg => hys g (by simp [hg])

theorem lastNonEmpty_prop (P : List Char → Prop) (hnil : P [])
    {ys : List (List Char)} (hys : ∀ y ∈ ys, P y) : P (lastNonEmpty ys) :=
  foldl_keepLast_prop P ys [] hnil hys

theorem lastNonEmpty_eq_nil {ys : List (List Char)} (h : ∀ y ∈ ys, y = []) :
    lastNonEmpty ys = [] :=
  lastNonEmpty_prop (fun l => l = []) rfl h

/-- C3 fails as stated: the adapter only removes an end-anchored marker piece
from each fragment, so a marker strictly inside a fragment survives cleaning
and reaches the accumulated final caption. -/
theorem c3_counterexample :
    eosMarker <:+: ['a', '<', 'E', 'N', 'D', 'b'] ∧
      eosMarker <:+: finalCaption [['a', '<', 'E', 'N', 'D', 'b']] := by
  constructor
  · decide
  · decide

/-- C3 amended: each fragment is cleaned only of an end-anchored marker piece
(a trailing lt-sign or a trailing END), and the running buffer is stripped of
marker characters at its two ends; consequently the final caption is free of
the end-of-stream marker whenever the marker's leading lt-sign only ever
occurs as the last character of a fragment (the streaming case), while a
marker strictly inside a single fragment is preserved. -/
theorem c3_marker_stripped_at_fragment_end (frags : List (List Char))
    (h : ∀ f ∈ frags, '<' ∉ f.dropLast) :
    ¬ eosMarker <:+: finalCaption frags := by
  intro hinf
  have hsub : eosMarker ⊆ finalCaption frags := hinf.sublist.subset
  have hlt : '<' ∈ finalCaption frags := hsub (by decide)
  have hno : '<' ∉ finalCaption frags :=
    lastNonEmpty_prop (fun l => '<' ∉ l) (by simp)
      (captionYieldsAux_no_lt frags [] (by simp) h)
  exact hno hlt

/-- Witness for c3_marker_stripped_at_fragment_end: the marker split across a
fragment boundary is fully stripped. -/
theorem c3_witness :
    ¬ eosMarker <:+: finalCaption [['h', 'i', '<'], ['E', 'N', 'D']] :=
  c3_marker_stripped_at_fragment_end _ (by decide)

/-! ## Trace-model lemmas -/

theorem isTaskEv_not_responded {β γ : Type} {e : Ev β γ} (h : isTaskEv e = true) :
    isRespondedEv e = false := by
  cases e <;> simp_all [isTaskEv, isRespondedEv]

theorem send_answer_task_all_task {β γ : Type} (id caption : List Char) (img : γ)
    (up : Bool) :
    ∀ e ∈ (@send_answer_task β γ id caption img up).1, isTaskEv e = true := by
  intro e he
  cases up with
  | false =>
      simp [send_answer_task] at he
      subst he
      rfl
  | true =>
      simp [send_answer_task] at he
      rcases he with rfl | rfl <;> rfl

theorem detect_object_task_all_task {β γ : Type} (bl : γ → β → List Char → Nat → γ)
    (id : List Char) (img : γ) (yolo : Except Unit (List (YoloRec β))) (up : Bool) :
    ∀ e ∈ (detect_object_task bl id img yolo up).1, isTaskEv e = true := by
  intro e he
  rcases yolo with u | results
  · simp [detect_object_task, predict_object] at he
    rcases he with rfl | rfl | rfl <;> rfl
  · rcases results with _ | ⟨r, rs⟩
    · simp [detect_object_task, predict_object] at he
      rcases he with rfl | rfl | rfl | rfl <;> rfl
    · cases up with
      | false =>
          simp [detect_object_task, predict_object] at he
          rcases he with rfl | rfl | rfl | rfl | rfl | rfl <;> rfl
      | true =>
          simp [detect_object_task, predict_object] at he
          rcases he with rfl | rfl | rfl | rfl | rfl | rfl | rfl | rfl | rfl <;> rfl

theorem send_answer_task_first {β γ : Type} (id caption : List Char) (img : γ)
    (up : Bool) :
    Ev.logSendingCaption id caption ∈ (@send_answer_task β γ id caption img up).1 := by
  cases up <;> simp [send_answer_task]

theorem send_answer_task_posted {β γ : Type} (id caption : List Char) (img : γ) :
    Ev.captionPosted id caption img ∈ (@send_answer_task β γ id caption img true).1 := by
  simp [send_answer_task]

theorem send_answer_task_no_detectPosted {β γ : Type} (id caption : List Char)
    (img : γ) (up : Bool) (i : List Char) (o : List (List Char × β)) (a : γ) :
    Ev.detectPosted i o a ∉ (@send_answer_task β γ id caption img up).1 := by
  cases up <;> simp [send_answer_task]

theorem detect_object_task_first {β γ : Type} (bl : γ → β → List Char → Nat → γ)
    (id : List Char) (img : γ) (yolo : Except Unit (List (YoloRec β))) (up : Bool) :
    Ev.logDetecting ∈ (detect_object_task bl id img yolo up).1 := by
  rcases yolo with u | results
  · simp [detect_object_task, predict_object]
  · rcases results with _ | ⟨r, rs⟩
    · simp [detect_object_task, predict_object]
    · cases up <;> simp [detect_object_task, predict_object]

theorem detect_object_task_failed_no_post {β γ : Type}
    (bl : γ → β → List Char → Nat → γ) (id : List Char) (img : γ)
    (yolo : Except Unit (List (YoloRec β))) (up : Bool)
    (hfail : (detect_object_task bl id img yolo up).2 = false)
    (i : List Char) (o : List (List Char × β)) (a : γ) :
    Ev.detectPosted i o a ∉ (detect_object_task bl id img yolo up).1 := by
  rcases yolo with u | results
  · simp [detect_object_task, predict_object]
  · rcases results with _ | ⟨r, rs⟩
    · simp [detect_object_task, predict_object]
    · cases up with
      | false => simp [detect_object_task, predict_object]
      | true => simp [detect_object_task, predict_object] at hfail

theorem detect_task_sink_down_trace_cut {β γ : Type}
    (bl : γ → β → List Char → Nat → γ) (id : List Char) (img : γ)
    (yolo : Except Unit (List (YoloRec β))) :
    (detect_object_task bl id img yolo false).1 <+:
      (detect_object_task bl id img yolo true).1 := by
  rcases yolo with u | results
  · exact ⟨[], by simp [detect_object_task, predict_object]⟩
  · rcases results with _ | ⟨r, rs⟩
    · exact ⟨[], by simp [detect_object_task, predict_object]⟩
    · refine ⟨[Ev.detectPosted id (labelObjects r.names r.cls r.xywh)
          (annotateAll bl img r.xyxy (labelObjects r.names r.cls r.xywh)),
        Ev.logRespStatus 200, Ev.logDetectDone], ?_⟩
      simp [detect_object_task, predict_object]

theorem create_upload_file_some {β γ : Type} (bl : γ → β → List Char → Nat → γ)
    (inp : UploadInput β γ) (img : γ) (hdec : inp.decoded = some img) :
    create_upload_file bl inp =
      ([Ev.logUploadingFile inp.filename, Ev.issuedId inp.uuid] ++
          (send_answer_task inp.uuid (finalCaption inp.fragments) img
            inp.sinkCaptionUp).1 ++
          (detect_object_task bl inp.uuid img inp.yolo inp.sinkDetectUp).1 ++
          [Ev.responded 200 (respBody inp.uuid (finalCaption inp.fragments))],
        .ok 200 (respBody inp.uuid (finalCaption inp.fragments))) := by
  unfold create_upload_file
  rw [hdec]

theorem create_upload_file_none {β γ : Type} (bl : γ → β → List Char → Nat → γ)
    (inp : UploadInput β γ) (hdec : inp.decoded = none) :
    create_upload_file bl inp =
      ([Ev.logUploadingFile inp.filename, Ev.issuedId inp.uuid], .errorResp 500) := by
  unfold create_upload_file
  rw [hdec]

/-! ## Claim C1 -/

/-- C1 fails as stated: in this successful run, background-task events occur
before the response event, because the executor with-block waits for both
delivery tasks before the handler returns. -/
theorem c1_counterexample :
    noTaskEvBeforeResponded
        (create_upload_file (fun (im : Unit) (_ : Unit) _ _ => im)
          (⟨"a.jpg".data, "u1".data, some (), [['h', 'i']],
            .ok [⟨[0], [()], [()], fun _ => "dog".data⟩], true, true⟩ :
            UploadInput Unit Unit)).1 = false := by
  decide

/-- C1 amended: the handler schedules both delivery tasks and then waits for
both to complete before returning, because the ThreadPoolExecutor with-block
joins them on exit: the response event is the last event of every successful
trace, strictly after every background-task event, and both tasks run (their
first events occur) before the response. -/
theorem c1_response_after_tasks {β γ : Type} (bl : γ → β → List Char → Nat → γ)
    (inp : UploadInput β γ) (img : γ) (hdec : inp.decoded = some img) :
    (create_upload_file bl inp).1.getLast? =
        some (Ev.responded 200 (respBody inp.uuid (finalCaption inp.fragments))) ∧
      (∀ e ∈ (create_upload_file bl inp).1.dropLast, isRespondedEv e = false) ∧
      Ev.logSendingCaption inp.uuid (finalCaption inp.fragments) ∈
        (create_upload_file bl inp).1.dropLast ∧
      Ev.logDetecting ∈ (create_upload_file bl inp).1.dropLast := by
  rw [create_upload_file_some bl inp img hdec]
  simp only [List.getLast?_concat, List.dropLast_concat]
  refine ⟨by trivial, ?_, ?_, ?_⟩
  · intro e he
    rw [List.mem_append] at he
    rcases he with he | he
    · rw [List.mem_append] at he
      rcases he with he | he
      · simp at he
        rcases he with rfl | rfl <;> rfl
      · exact isTaskEv_not_responded
          (send_answer_task_all_task inp.uuid (finalCaption inp.fragments) img
            inp.sinkCaptionUp e he)
    · exact isTaskEv_not_responded
        (detect_object_task_all_task bl inp.uuid img inp.yolo inp.sinkDetectUp e he)
  · exact List.mem_append_left _ (List.mem_append_right _
      (send_answer_task_first inp.uuid (finalCaption inp.fragments) img
        inp.sinkCaptionUp))
  · exact List.mem_append_right _
      (detect_object_task_first bl inp.uuid img inp.yolo inp.sinkDetectUp)

/-- Witness for c1_response_after_tasks at a concrete successful upload. -/
theorem c1_witness :
    (create_upload_file (fun (im : Unit) (_ : Unit) _ _ => im)
        (⟨"a.jpg".data, "u1".data, some (), [], .ok [], true, true⟩ :
          UploadInput Unit Unit)).1.getLast? =
      some (Ev.responded 200 (respBody "u1".data (finalCaption []))) :=
  (c1_response_after_tasks (fun (im : Unit) (_ : Unit) _ _ => im) _ () rfl).1

/-! ## Claim C2 -/

/-- C2 fails as stated: on an undecodable payload the correlation id has
already been issued (the uuid is drawn before Image.open), and the surfaced
response is a 500, not a 4xx. -/
theorem c2_counterexample :
    ¬ (((create_upload_file (fun (im : Unit) (_ : Unit) _ _ => im)
            (⟨"a.jpg".data, "u1".data, none, [], .ok [], true, true⟩ :
              UploadInput Unit Unit)).1.all fun e => !(isIssuedIdEv e)) = true ∧
        is4xxResp (create_upload_file (fun (im : Unit) (_ : Unit) _ _ => im)
            (⟨"a.jpg".data, "u1".data, none, [], .ok [], true, true⟩ :
              UploadInput Unit Unit)).2 = true) := by
  decide

/-- C2 amended: a payload that fails to decode makes Image.open raise after
the uuid draw: the trace shows the id already issued, the unhandled error
surfaces as a 500 response, and no background work of any kind is scheduled. -/
theorem c2_decode_failure_after_id {β γ : Type} (bl : γ → β → List Char → Nat → γ)
    (inp : UploadInput β γ) (hdec : inp.decoded = none) :
    Ev.issuedId inp.uuid ∈ (create_upload_file bl inp).1 ∧
      (create_upload_file bl inp).2 = .errorResp 500 ∧
      (∀ e ∈ (create_upload_file bl inp).1, isTaskEv e = false) := by
  rw [create_upload_file_none bl inp hdec]
  refine ⟨by simp, rfl, ?_⟩
  intro e he
  simp at he
  rcases he with rfl | rfl <;> rfl

/-- Witness for c2_decode_failure_after_id at a concrete bad payload. -/
theorem c2_witness :
    Ev.issuedId "u1".data ∈
      (create_upload_file (fun (im : Unit) (_ : Unit) _ _ => im)
        (⟨"a.jpg".data, "u1".data, none, [], .ok [], true, true⟩ :
          UploadInput Unit Unit)).1 :=
  (c2_decode_failure_after_id (fun (im : Unit) (_ : Unit) _ _ => im) _ rfl).1

/-! ## Claim C5 -/

/-- C5: a frame with zero detections (one detector record with empty boxes)
makes the labeling step return the empty sequence, and the detection delivery
still posts to the Sink a request with the request's id, an empty
detected_objects array, and the untouched image; delivery is not skipped. -/
theorem c5_zero_detections {β γ : Type} (bl : γ → β → List Char → Nat → γ)
    (inp : UploadInput β γ) (img : γ) (names : Nat → List Char)
    (hdec : inp.decoded = some img)
    (hyolo : inp.yolo = .ok [⟨[], [], [], names⟩])
    (hup : inp.sinkDetectUp = true) :
    labelObjects names [] ([] : List β) = [] ∧
      Ev.detectPosted inp.uuid [] img ∈ (create_upload_file bl inp).1 := by
  refine ⟨rfl, ?_⟩
  rw [create_upload_file_some bl inp img hdec, hyolo, hup]
  refine List.mem_append_left _ (List.mem_append_right _ ?_)
  simp [detect_object_task, predict_object, labelObjects, labelsOf, labelLoop,
    annotateAll]

/-- Witness for c5_zero_detections at a concrete zero-detection frame. -/
theorem c5_witness :
    Ev.detectPosted "u1".data ([] : List (List Char × Unit)) () ∈
      (create_upload_file (fun (im : Unit) (_ : Unit) _ _ => im)
        (⟨"a.jpg".data, "u1".data, some (), [],
          .ok [⟨[], [], [], fun _ => "x".data⟩], true, true⟩ :
          UploadInput Unit Unit)).1 :=
  (c5_zero_detections (fun (im : Unit) (_ : Unit) _ _ => im) _ ()
    (fun _ => "x".data) rfl rfl rfl).2

/-! ## Claim C6 -/

/-- C6 fails as stated on its logging conjunct: at this concrete run in which
the detection delivery fails (Sink unreachable), every log event of the
failing run also occurs in the corresponding successful run, so nothing is
logged about the failure; the exception stays unread in the executor Future. -/
theorem c6_counterexample :
    ((detect_object_task (fun (im : Unit) (_ : Unit) _ _ => im) "u1".data ()
          (.ok [⟨[0], [()], [()], fun _ => "dog".data⟩]) false).2 = false) ∧
      ((create_upload_file (fun (im : Unit) (_ : Unit) _ _ => im)
            (⟨"a.jpg".data, "u1".data, some (), [['h', 'i']],
              .ok [⟨[0], [()], [()], fun _ => "dog".data⟩], true, false⟩ :
              UploadInput Unit Unit)).1.all fun e =>
          !(isLogEv e) ||
            ((create_upload_file (fun (im : Unit) (_ : Unit) _ _ => im)
              (⟨"a.jpg".data, "u1".data, some (), [['h', 'i']],
                .ok [⟨[0], [()], [()], fun _ => "dog".data⟩], true, true⟩ :
                UploadInput Unit Unit)).1.contains e)) = true := by
  constructor
  · decide
  · decide

/-- C6 amended: when the detection path fails (collaborator error, the bare
no-results return, or an unreachable Sink), no detection delivery is sent,
the handler still returns its normal 200 response (the captured exception
never crashes the process), the caption delivery for the same id is
unaffected, and the failure is not logged: with the Sink down the detection
task's trace is a prefix of its successful trace, so no extra event records
the failure. -/
theorem c6_detection_failure_isolated {β γ : Type}
    (bl : γ → β → List Char → Nat → γ) (inp : UploadInput β γ) (img : γ)
    (hdec : inp.decoded = some img)
    (hfail : (detect_object_task bl inp.uuid img inp.yolo inp.sinkDetectUp).2 =
      false) :
    (∀ (i : List Char) (o : List (List Char × β)) (a : γ),
        Ev.detectPosted i o a ∉ (create_upload_file bl inp).1) ∧
      (create_upload_file bl inp).2 =
        .ok 200 (respBody inp.uuid (finalCaption inp.fragments)) ∧
      (inp.sinkCaptionUp = true →
        Ev.captionPosted inp.uuid (finalCaption inp.fragments) img ∈
          (create_upload_file bl inp).1) ∧
      (∀ (yolo' : Except Unit (List (YoloRec β))),
        (detect_object_task bl inp.uuid img yolo' false).1 <+:
          (detect_object_task bl inp.uuid img yolo' true).1) := by
  rw [create_upload_file_some bl inp img hdec]
  refine ⟨?_, rfl, ?_, ?_⟩
  · intro i o a hmem
    rw [List.mem_append] at hmem
    rcases hmem with hmem | hmem
    · rw [List.mem_append] at hmem
      rcases hmem with hmem | hmem
      · rw [List.mem_append] at hmem
        rcases hmem with hmem | hmem
        · simp at hmem
        · exact send_answer_task_no_detectPosted inp.uuid
            (finalCaption inp.fragments) img inp.sinkCaptionUp i o a hmem
      · exact detect_object_task_failed_no_post bl inp.uuid img inp.yolo
          inp.sinkDetectUp hfail i o a hmem
    · simp at hmem
  · intro hcap
    rw [hcap]
    exact List.mem_append_left _ (List.mem_append_left _
      (List.mem_append_right _
        (send_answer_task_posted inp.uuid (finalCaption inp.fragments) img)))
  · intro yolo'
    exact detect_task_sink_down_trace_cut bl inp.uuid img yolo'

/-- Witness for c6_detection_failure_isolated at a concrete Sink-unreachable
run. -/
theorem c6_witness :
    Ev.detectPosted "u1".data ([] : List (List Char × Unit)) () ∉
      (create_upload_file (fun (im : Unit) (_ : Unit) _ _ => im)
        (⟨"a.jpg".data, "u1".data, some (), [['h', 'i']],
          .ok [⟨[0], [()], [()], fun _ => "dog".data⟩], true, false⟩ :
          UploadInput Unit Unit)).1 :=
  (c6_detection_failure_isolated (fun (im : Unit) (_ : Unit) _ _ => im) _ ()
    rfl (by decide)).1 "u1".data [] ()

/-! ## Claim C9 -/

/-- C9 fails as stated: the successful response body does not consist of the
two fields id and caption alone; the code returns a third field url. -/
theorem c9_counterexample :
    respKeysOf (create_upload_file (fun (im : Unit) (_ : Unit) _ _ => im)
        (⟨"a.jpg".data, "u1".data, some (), [['h', 'i']], .ok [], true, true⟩ :
          UploadInput Unit Unit)).2 ≠
      some ["id".data, "caption".data] := by
  decide

/-- C9 amended: every successful upload returns status 200 with body exactly
the three fields id, caption, and url, where url is the hardcoded render URL
base followed by the id. -/
theorem c9_response_shape {β γ : Type} (bl : γ → β → List Char → Nat → γ)
    (inp : UploadInput β γ) (img : γ) (hdec : inp.decoded = some img) :
    (create_upload_file bl inp).2 =
      .ok 200 [("id".data, inp.uuid),
        ("caption".data, finalCaption inp.fragments),
        ("url".data,
          "https://7f0e-4-78-254-114.ngrok-free.app/render/".data ++ inp.uuid)] := by
  rw [create_upload_file_some bl inp img hdec]
  rfl

/-- Witness for c9_response_shape at a concrete successful upload. -/
theorem c9_witness :
    (create_upload_file (fun (im : Unit) (_ : Unit) _ _ => im)
        (⟨"a.jpg".data, "u1".data, some (), [], .ok [], true, true⟩ :
          UploadInput Unit Unit)).2 =
      .ok 200 [("id".data, "u1".data), ("caption".data, finalCaption []),
        ("url".data,
          "https://7f0e-4-78-254-114.ngrok-free.app/render/".data ++ "u1".data)] :=
  c9_response_shape (fun (im : Unit) (_ : Unit) _ _ => im) _ () rfl

/-! ## Claim C10 -/

/-- C10: when the captioning stream yields no non-empty text, the upload still
succeeds with caption equal to the empty string, the caption delivery task is
still scheduled carrying the empty caption, and the detection delivery task is
still scheduled. -/
theorem c10_empty_caption_stream {β γ : Type} (bl : γ → β → List Char → Nat → γ)
    (inp : UploadInput β γ) (img : γ) (hdec : inp.decoded = some img)
    (hy : ∀ y ∈ captionYields inp.fragments, y = []) :
    (create_upload_file bl inp).2 = .ok 200 (respBody inp.uuid []) ∧
      Ev.logSendingCaption inp.uuid [] ∈ (create_upload_file bl inp).1 ∧
      Ev.logDetecting ∈ (create_upload_file bl inp).1 := by
  have hfc : finalCaption inp.fragments = [] := lastNonEmpty_eq_nil hy
  rw [create_upload_file_some bl inp img hdec, hfc]
  refine ⟨rfl, ?_, ?_⟩
  · exact List.mem_append_left _ (List.mem_append_left _
      (List.mem_append_right _
        (send_answer_task_first inp.uuid [] img inp.sinkCaptionUp)))
  · exact List.mem_append_left _ (List.mem_append_right _
      (detect_object_task_first bl inp.uuid img inp.yolo inp.sinkDetectUp))

/-- Witness for c10_empty_caption_stream: the stream consisting of the lone
fragment END cleans and strips to nothing. -/
theorem c10_witness :
    (create_upload_file (fun (im : Unit) (_ : Unit) _ _ => im)
        (⟨"a.jpg".data, "u1".data, some (), [['E', 'N', 'D']], .ok [], true,
          true⟩ : UploadInput Unit Unit)).2 =
      .ok 200 (respBody "u1".data []) :=
  (c10_empty_caption_stream (fun (im : Unit) (_ : Unit) _ _ => im) _ () rfl
    (by decide)).1

/-! ## Claim C8 -/

/-- C8: the annotated image is a new artifact and the original decoded image
is never mutated by the detection path: after the detection task runs, the
original buffer's pixels are unchanged, the caption delivery task serializes
exactly the image as decoded at upload, and the annotated image lives in a
buffer distinct from the original. -/
theorem c8_image_not_mutated {γ δ : Type} (draw : γ → γ) (jpeg : γ → δ)
    (m : Mem γ) (imgBuf : Nat) (h : imgBuf < m.next) :
    (detect_object_mem draw m imgBuf).2.store imgBuf = m.store imgBuf ∧
      send_answer_mem jpeg (detect_object_mem draw m imgBuf).2 imgBuf =
        jpeg (m.store imgBuf) ∧
      (detect_object_mem draw m imgBuf).1 ≠ imgBuf := by
  unfold detect_object_mem npArrayCopy annotateInPlace send_answer_mem
  unfold Mem.alloc Mem.write
  simp only []
  have h1 : imgBuf ≠ m.next := by omega
  have h2 : imgBuf ≠ m.next + 1 := by omega
  refine ⟨?_, ?_, ?_⟩
  · simp [h1, h2]
  · simp [h1, h2]
  · simpa using fun hh => h2 hh.symm

/-- Witness for c8_image_not_mutated at a concrete one-buffer store. -/
theorem c8_witness :
    (detect_object_mem (fun x => x + 1) (⟨1, fun _ => 7⟩ : Mem Nat) 0).2.store 0 =
      (⟨1, fun _ => 7⟩ : Mem Nat).store 0 :=
  (c8_image_not_mutated (fun x => x + 1) (fun x => x) (⟨1, fun _ => 7⟩ : Mem Nat)
    0 (by decide)).1

end MoUI
